import Mathlib

/-!
Verification of the per-frame vehicle controller of `src/car.py` (class
`_Logic`, method `update`, together with the tuning constants of `_Phys`).
Python floats are embedded as rationals; the controller is a pure function
from the input snapshot, the current speed, the frame delta and the
persistent steering state to the frame outputs and the next state.
-/

/-- Python `min(a, b)`: `b` when `b < a`, else the first argument. -/
def pymin (a b : ℚ) : ℚ := if b < a then b else a

/-- Python `max(a, b)`: `b` when `a < b`, else the first argument. -/
def pymax (a b : ℚ) : ℚ := if a < b then b else a

/-- Python `abs(x)` on a rational value. -/
def pyabs (x : ℚ) : ℚ := if x < 0 then -x else x

theorem pymin_eq_min (a b : ℚ) : pymin a b = min a b := by
  unfold pymin
  rcases lt_or_le b a with h | h
  · simp [h, min_eq_right h.le]
  · simp [not_lt.mpr h, min_eq_left h]

theorem pymax_eq_max (a b : ℚ) : pymax a b = max a b := by
  unfold pymax
  rcases lt_or_le a b with h | h
  · simp [h, max_eq_right h.le]
  · simp [not_lt.mpr h, max_eq_left h]

theorem pyabs_eq_abs (x : ℚ) : pyabs x = |x| := by
  unfold pyabs
  rcases lt_or_le x 0 with h | h
  · simp [h, abs_of_neg h]
  · simp [not_lt.mpr h, abs_of_nonneg h]

/-- The tuning constants of `_Phys` that the controller reads
(src/car.py lines 24-33). -/
structure Phys where
  max_speed : ℚ
  steering_min_speed : ℚ
  steering_max_speed : ℚ
  steering_inc : ℚ
  steering_dec : ℚ
  engine_acc_frc : ℚ
  engine_dec_frc : ℚ
  brake_frc : ℚ
  deriving Repr

/-- The configured tuning constants of `_Phys` in src/car.py. -/
def carPhys : Phys :=
  { max_speed := 90
    steering_min_speed := 40
    steering_max_speed := 10
    steering_inc := 120
    steering_dec := 120
    engine_acc_frc := 5000
    engine_dec_frc := -2000
    brake_frc := 100 }

/-- The four-boolean input snapshot (`input_dct` built in `_Event.evt_OnFrame`). -/
structure InputDct where
  forward : Bool
  reverse : Bool
  left : Bool
  right : Bool
  deriving Repr, DecidableEq

/-- The persistent state of `_Logic`: the steering angle `self.__steering`. -/
structure LogicState where
  steering : ℚ
  deriving Repr, DecidableEq

/-- `_Logic.__init__` sets `self.__steering = 0` (src/car.py line 224). -/
def logicInit : LogicState := ⟨0⟩

/-- The three per-frame outputs passed to `_Phys.set_forces`. -/
structure FrameOutputs where
  eng_frc : ℚ
  brake_frc : ℚ
  steering : ℚ
  deriving Repr, DecidableEq

/-- `speed_ratio = min(1.0, self.mdt.phys.speed / self.mdt.phys.max_speed)`
(src/car.py line 233). -/
def speedRatio (phys : Phys) (speed : ℚ) : ℚ :=
  pymin 1 (speed / phys.max_speed)

/-- The dynamic clamp as a function of the speed ratio:
`steering_clamp = steering_min_speed - speed_ratio * steering_range`
(src/car.py lines 234-235). -/
def clampOfRatio (phys : Phys) (ratio : ℚ) : ℚ :=
  phys.steering_min_speed - ratio * (phys.steering_min_speed - phys.steering_max_speed)

/-- The dynamic steering clamp computed in an update at a given speed. -/
def steeringClamp (phys : Phys) (speed : ℚ) : ℚ :=
  clampOfRatio phys (speedRatio phys speed)

/-- The `left` branch: `self.__steering += steering_inc;
self.__steering = min(self.__steering, steering_clamp)`
(src/car.py lines 245-247). -/
def steerLeft (inc clamp s : ℚ) : ℚ :=
  pymin (s + inc) clamp

/-- The `right` branch: `self.__steering -= steering_inc;
self.__steering = max(self.__steering, -steering_clamp)`
(src/car.py lines 249-251). -/
def steerRight (inc clamp s : ℚ) : ℚ :=
  pymax (s - inc) (-clamp)

/-- The centering branch (src/car.py lines 253-258): snap to `0` when
`abs(self.__steering) <= steering_dec`, otherwise move toward zero by
`steering_dec` with `steering_sign = (-1 if self.__steering > 0 else 1)`. -/
def steerCenter (dec s : ℚ) : ℚ :=
  if pyabs s ≤ dec then 0 else s + (if 0 < s then (-1 : ℚ) else 1) * dec

/-- The steering part of `_Logic.update`: the three `if` statements on
`left` / `right` / neither, applied in source order to the mutable
`self.__steering` (src/car.py lines 245-258). -/
def steerUpdate (input : InputDct) (inc dec clamp s : ℚ) : ℚ :=
  let s1 := if input.left then steerLeft inc clamp s else s
  let s2 := if input.right then steerRight inc clamp s1 else s1
  if !input.left && !input.right then steerCenter dec s2 else s2

/-- The engine force part of `_Logic.update` (src/car.py lines 228, 237-243):
default `0`, overwritten by the `forward` branch, then by the `reverse`
branch. -/
def engineForce (phys : Phys) (input : InputDct) (speed : ℚ) : ℚ :=
  let e0 : ℚ := 0
  let e1 := if input.forward then
      (if speed < phys.max_speed then phys.engine_acc_frc else 0) else e0
  if input.reverse then
      (if speed < 1/20 then phys.engine_dec_frc else 0) else e1

/-- The brake force part of `_Logic.update` (src/car.py lines 228, 239, 243):
default `0`, set to `0` by the `forward` branch, overwritten with
`brake_frc` by the `reverse` branch. -/
def brakeForce (phys : Phys) (input : InputDct) : ℚ :=
  let b0 : ℚ := 0
  let b1 := if input.forward then 0 else b0
  if input.reverse then phys.brake_frc else b1

/-- `_Logic.update` (src/car.py lines 226-260): computes this frame's
engine force, brake force and steering angle, advancing the persistent
steering state, and returns what is passed to `_Phys.set_forces`. -/
def update (phys : Phys) (speed d_t : ℚ) (input : InputDct) (st : LogicState) :
    FrameOutputs × LogicState :=
  let steering_inc := d_t * phys.steering_inc
  let steering_dec := d_t * phys.steering_dec
  let steering_clamp := steeringClamp phys speed
  let eng_frc := engineForce phys input speed
  let brake_frc := brakeForce phys input
  let s := steerUpdate input steering_inc steering_dec steering_clamp st.steering
  (⟨eng_frc, brake_frc, s⟩, ⟨s⟩)

/-- A sequence of frames at one fixed speed: each list entry is the input
snapshot and the frame delta of one call of `_Logic.update`. -/
def runConstSpeed (phys : Phys) (speed : ℚ) (steps : List (InputDct × ℚ))
    (st : LogicState) : LogicState :=
  steps.foldl (fun s p => (update phys speed p.2 p.1 s).2) st

/-- Scenario from the specification: forward+left from rest at dt = 0.1
yields engine force 5000, brake force 0 and steering angle 12. -/
theorem scenario_forward_left :
    (update carPhys 0 (1/10) ⟨true, false, true, false⟩ logicInit).1 =
    ⟨5000, 0, 12⟩ := by norm_num [update, steerUpdate, steerLeft, steerRight, steerCenter, steeringClamp, clampOfRatio, speedRatio, engineForce, brakeForce, pymin, pymax, pyabs, carPhys, logicInit]

/-- Scenario from the specification: forward at exactly max speed yields
engine force 0. -/
theorem scenario_forward_at_max :
    (update carPhys 90 (1/10) ⟨true, false, false, false⟩ logicInit).1.eng_frc
    = 0 := by norm_num [update, steerUpdate, steerLeft, steerRight, steerCenter, steeringClamp, clampOfRatio, speedRatio, engineForce, brakeForce, pymin, pymax, pyabs, carPhys, logicInit]

/-- Scenario from the specification: centering from steering angle 5 with a
per-frame decrement of 12 snaps to exactly 0. -/
theorem scenario_centering_snap :
    (update carPhys 0 (1/10) ⟨false, false, false, false⟩ ⟨5⟩).2.steering
    = 0 := by norm_num [update, steerUpdate, steerLeft, steerRight, steerCenter, steeringClamp, clampOfRatio, speedRatio, engineForce, brakeForce, pymin, pymax, pyabs, carPhys, logicInit]

/-- A checked variant of `_Logic.update` in which the one partial operation of
the Python code, the division `speed / max_speed`, is guarded: it returns
`none` exactly when Python would raise `ZeroDivisionError`. -/
def divChecked (a b : ℚ) : Option ℚ :=
  if b = 0 then none else some (a / b)

/-- `_Logic.update` with the division guarded, every other operation being
total: `none` models a raised error. -/
def updateChecked (phys : Phys) (speed d_t : ℚ) (input : InputDct)
    (st : LogicState) : Option (FrameOutputs × LogicState) := do
  let steering_inc := d_t * phys.steering_inc
  let steering_dec := d_t * phys.steering_dec
  let q ← divChecked speed phys.max_speed
  let speed_ratio := pymin 1 q
  let steering_clamp := clampOfRatio phys speed_ratio
  let eng_frc := engineForce phys input speed
  let brake_frc := brakeForce phys input
  let s := steerUpdate input steering_inc steering_dec steering_clamp st.steering
  some (⟨eng_frc, brake_frc, s⟩, ⟨s⟩)

/-- Claim C10: `_Logic.__init__` initializes the persistent steering angle to
exactly 0, so every vehicle starts its first update from centered steering. -/
theorem claim_C10_init_steering : logicInit.steering = 0 := rfl

/-- Claim C4: with `forward = true` and `reverse = false`, the engine force
output is 0 whenever `current_speed >= max_speed`, and it is `engine_acc_frc`
with brake force 0 whenever `current_speed < max_speed`. -/
theorem claim_C4_forward_cutoff (phys : Phys) (v d : ℚ) (st : LogicState)
    (l r : Bool) :
    (phys.max_speed ≤ v →
      (update phys v d ⟨true, false, l, r⟩ st).1.eng_frc = 0) ∧
    (v < phys.max_speed →
      (update phys v d ⟨true, false, l, r⟩ st).1.eng_frc = phys.engine_acc_frc ∧
      (update phys v d ⟨true, false, l, r⟩ st).1.brake_frc = 0) := by
  constructor
  · intro h
    simp [update, engineForce, not_lt.mpr h]
  · intro h
    constructor
    · simp [update, engineForce, h]
    · simp [update, brakeForce]

theorem claim_C4_witness :
    (update carPhys 90 (1/10) ⟨true, false, false, false⟩ logicInit).1.eng_frc = 0 ∧
    ((update carPhys 0 (1/10) ⟨true, false, false, false⟩ logicInit).1.eng_frc =
        carPhys.engine_acc_frc ∧
      (update carPhys 0 (1/10) ⟨true, false, false, false⟩ logicInit).1.brake_frc = 0) :=
  ⟨(claim_C4_forward_cutoff carPhys 90 (1/10) logicInit false false).1
      (by norm_num [carPhys]),
    (claim_C4_forward_cutoff carPhys 0 (1/10) logicInit false false).2
      (by norm_num [carPhys])⟩

/-- Claim C5: with `reverse = true` (`forward` arbitrary), the brake force
output is `brake_frc` unconditionally, and the engine force output is
`engine_dec_frc` when `current_speed < 0.05` and 0 when
`current_speed >= 0.05`. -/
theorem claim_C5_reverse_threshold (phys : Phys) (v d : ℚ) (st : LogicState)
    (f l r : Bool) :
    (update phys v d ⟨f, true, l, r⟩ st).1.brake_frc = phys.brake_frc ∧
    (v < 1/20 →
      (update phys v d ⟨f, true, l, r⟩ st).1.eng_frc = phys.engine_dec_frc) ∧
    (1/20 ≤ v →
      (update phys v d ⟨f, true, l, r⟩ st).1.eng_frc = 0) := by
  refine ⟨by simp [update, brakeForce], fun h => ?_, fun h => ?_⟩
  · show (if v < 1/20 then phys.engine_dec_frc else 0) = phys.engine_dec_frc
    exact if_pos h
  · show (if v < 1/20 then phys.engine_dec_frc else 0) = 0
    exact if_neg (not_lt.mpr h)

theorem claim_C5_witness :
    (update carPhys 1 (1/10) ⟨false, true, false, false⟩ logicInit).1.brake_frc =
      carPhys.brake_frc ∧
    (update carPhys 0 (1/10) ⟨false, true, false, false⟩ logicInit).1.eng_frc =
      carPhys.engine_dec_frc ∧
    (update carPhys 1 (1/10) ⟨false, true, false, false⟩ logicInit).1.eng_frc = 0 :=
  ⟨(claim_C5_reverse_threshold carPhys 1 (1/10) logicInit false false false).1,
    (claim_C5_reverse_threshold carPhys 0 (1/10) logicInit false false false).2.1
      (by norm_num),
    (claim_C5_reverse_threshold carPhys 1 (1/10) logicInit false false false).2.2
      (by norm_num)⟩

/-- Claim C6: with both `forward = true` and `reverse = true`, the engine and
brake force outputs equal those of the corresponding reverse-only call:
the reverse branch executes after the forward branch and wins. -/
theorem claim_C6_reverse_wins (phys : Phys) (v d : ℚ) (st : LogicState)
    (l r : Bool) :
    (update phys v d ⟨true, true, l, r⟩ st).1.eng_frc =
      (update phys v d ⟨false, true, l, r⟩ st).1.eng_frc ∧
    (update phys v d ⟨true, true, l, r⟩ st).1.brake_frc =
      (update phys v d ⟨false, true, l, r⟩ st).1.brake_frc := by
  exact ⟨by simp [update, engineForce], by simp [update, brakeForce]⟩

/-- Claim C7: under the configured tuning (`steering_min_speed = 40`,
`steering_max_speed = 10`) the dynamic clamp is non-increasing in the speed
ratio on [0,1], equals `steering_min_speed` at ratio 0 and
`steering_max_speed` at ratio 1. -/
theorem claim_C7_clamp_monotone :
    (∀ r1 r2 : ℚ, 0 ≤ r1 → r1 ≤ r2 → r2 ≤ 1 →
      clampOfRatio carPhys r2 ≤ clampOfRatio carPhys r1) ∧
    clampOfRatio carPhys 0 = carPhys.steering_min_speed ∧
    clampOfRatio carPhys 1 = carPhys.steering_max_speed := by
  refine ⟨fun r1 r2 _ h12 _ => ?_, by norm_num [clampOfRatio, carPhys],
    by norm_num [clampOfRatio, carPhys]⟩
  simp only [clampOfRatio, carPhys]
  norm_num
  linarith

theorem claim_C7_witness :
    clampOfRatio carPhys 1 ≤ clampOfRatio carPhys 0 :=
  claim_C7_clamp_monotone.1 0 1 (by norm_num) (by norm_num) (by norm_num)

/-- Claim C3 as stated is false: the speed ratio has no lower clamp, so at
`current_speed = -90` it equals -1, outside [0,1]. -/
theorem claim_C3_counterexample :
    ¬ (0 ≤ speedRatio carPhys (-90) ∧ speedRatio carPhys (-90) ≤ 1) := by
  norm_num [speedRatio, pymin, carPhys]

/-- Claim C3 amended: the speed ratio equals `min(1, current_speed/max_speed)`
and is at most 1 for every speed; it lies in [0,1] whenever
`current_speed >= 0`, but for negative speeds it is negative (only the upper
side is clamped). -/
theorem claim_C3_speed_ratio (v : ℚ) :
    speedRatio carPhys v = min 1 (v / carPhys.max_speed) ∧
    speedRatio carPhys v ≤ 1 ∧
    (0 ≤ v → 0 ≤ speedRatio carPhys v ∧ speedRatio carPhys v ≤ 1) := by
  have he : speedRatio carPhys v = min 1 (v / carPhys.max_speed) :=
    pymin_eq_min 1 (v / carPhys.max_speed)
  refine ⟨he, by rw [he]; exact min_le_left _ _, fun hv => ⟨?_, ?_⟩⟩
  · rw [he]
    exact le_min (by norm_num) (div_nonneg hv (by norm_num [carPhys]))
  · rw [he]
    exact min_le_left _ _

theorem claim_C3_witness :
    0 ≤ speedRatio carPhys 45 ∧ speedRatio carPhys 45 ≤ 1 :=
  (claim_C3_speed_ratio 45).2.2 (by norm_num)

/-- Claim C9: given the configuration precondition `max_speed > 0`, the update
computation is total: the checked variant, whose only failure point is the
division by `max_speed`, raises no error and agrees with the total
embedding on every input snapshot, speed, frame delta and steering state. -/
theorem claim_C9_total (phys : Phys) (v d : ℚ) (input : InputDct)
    (st : LogicState) (h : 0 < phys.max_speed) :
    updateChecked phys v d input st = some (update phys v d input st) := by
  simp [updateChecked, divChecked, update, steeringClamp, speedRatio,
    ne_of_gt h]

theorem claim_C9_witness :
    updateChecked carPhys 0 (1/10) ⟨true, false, true, false⟩ logicInit =
      some (update carPhys 0 (1/10) ⟨true, false, true, false⟩ logicInit) :=
  claim_C9_total carPhys 0 (1/10) ⟨true, false, true, false⟩ logicInit
    (by norm_num [carPhys])

/-- Claim C2 as stated is false: from centered steering at speed 0 with
`dt = 0.1`, simultaneous left+right leaves the steering angle at 0, while a
right-only update yields -12, so left+right does not degenerate to right-only
behavior. -/
theorem claim_C2_counterexample :
    (update carPhys 0 (1/10) ⟨false, false, true, true⟩ logicInit).2.steering ≠
      (update carPhys 0 (1/10) ⟨false, false, false, true⟩ logicInit).2.steering := by
  norm_num [update, steerUpdate, steerLeft, steerRight, steerCenter,
    steeringClamp, clampOfRatio, speedRatio, pymin, pymax, pyabs, carPhys,
    logicInit]

/-- Claim C2 amended: when both `left` and `right` are set, left's
increment-then-clamp runs first and right's decrement-then-clamp second;
whenever neither clamp engages (the incremented angle stays at most the clamp
and the current angle at least its negation), the increment and the decrement
cancel and the steering angle is unchanged — not right-only behavior. -/
theorem claim_C2_left_right_cancel (phys : Phys) (v d : ℚ) (st : LogicState)
    (f r : Bool)
    (hup : st.steering + d * phys.steering_inc ≤ steeringClamp phys v)
    (hlo : -steeringClamp phys v ≤ st.steering) :
    (update phys v d ⟨f, r, true, true⟩ st).2.steering = st.steering := by
  show steerRight (d * phys.steering_inc) (steeringClamp phys v)
      (steerLeft (d * phys.steering_inc) (steeringClamp phys v) st.steering) =
    st.steering
  unfold steerLeft steerRight pymin pymax
  rw [if_neg (not_lt.mpr hup), add_sub_cancel_right, if_neg (not_lt.mpr hlo)]

theorem claim_C2_witness :
    (update carPhys 0 (1/10) ⟨false, false, true, true⟩ logicInit).2.steering =
      logicInit.steering :=
  claim_C2_left_right_cancel carPhys 0 (1/10) logicInit false false
    (by norm_num [steeringClamp, clampOfRatio, speedRatio, pymin, carPhys,
      logicInit])
    (by norm_num [steeringClamp, clampOfRatio, speedRatio, pymin, carPhys,
      logicInit])

theorem steerLeft_mem (inc clamp s : ℚ) (hinc : 0 ≤ inc) (hc : 0 ≤ clamp)
    (hlo : -clamp ≤ s) :
    -clamp ≤ steerLeft inc clamp s ∧ steerLeft inc clamp s ≤ clamp := by
  rw [steerLeft, pymin_eq_min]
  exact ⟨le_min (by linarith) (by linarith), min_le_right _ _⟩

theorem steerRight_mem (inc clamp s : ℚ) (hinc : 0 ≤ inc) (hc : 0 ≤ clamp)
    (hhi : s ≤ clamp) :
    -clamp ≤ steerRight inc clamp s ∧ steerRight inc clamp s ≤ clamp := by
  rw [steerRight, pymax_eq_max]
  exact ⟨le_max_right _ _, max_le (by linarith) (by linarith)⟩

theorem steerCenter_mem (dec clamp s : ℚ) (hdec : 0 ≤ dec) (hc : 0 ≤ clamp)
    (hlo : -clamp ≤ s) (hhi : s ≤ clamp) :
    -clamp ≤ steerCenter dec s ∧ steerCenter dec s ≤ clamp := by
  rw [steerCenter, pyabs_eq_abs]
  by_cases habs : |s| ≤ dec
  · rw [if_pos habs]
    constructor <;> linarith
  · rw [if_neg habs]
    push_neg at habs
    by_cases hs : 0 < s
    · rw [if_pos hs]
      rw [abs_of_pos hs] at habs
      constructor <;> linarith
    · rw [if_neg hs]
      push_neg at hs
      rw [abs_of_nonpos hs] at habs
      constructor <;> linarith

theorem steerUpdate_mem (input : InputDct) (inc dec clamp s : ℚ)
    (hinc : 0 ≤ inc) (hdec : 0 ≤ dec) (hc : 0 ≤ clamp) (hs : |s| ≤ clamp) :
    |steerUpdate input inc dec clamp s| ≤ clamp := by
  rw [abs_le] at hs
  rw [abs_le, steerUpdate]
  rcases hl : input.left with _ | _ <;> rcases hr : input.right with _ | _ <;>
    simp only [hl, hr, if_true, if_false, Bool.not_true, Bool.not_false,
      Bool.and_self, Bool.and_false, Bool.false_and, Bool.true_and]
  · exact steerCenter_mem dec clamp s hdec hc hs.1 hs.2
  · exact steerRight_mem inc clamp s hinc hc hs.2
  · exact steerLeft_mem inc clamp s hinc hc hs.1
  · exact steerRight_mem inc clamp _ hinc hc
      (steerLeft_mem inc clamp s hinc hc hs.1).2

theorem steeringClamp_carPhys_nonneg (v : ℚ) :
    0 ≤ steeringClamp carPhys v := by
  rw [steeringClamp, clampOfRatio, speedRatio, pymin_eq_min]
  have h1 : min 1 (v / carPhys.max_speed) ≤ 1 := min_le_left _ _
  simp only [carPhys] at h1 ⊢
  linarith

theorem runConstSpeed_bound (v : ℚ) (steps : List (InputDct × ℚ)) :
    ∀ st : LogicState, (∀ p ∈ steps, 0 ≤ p.2) →
      |st.steering| ≤ steeringClamp carPhys v →
      |(runConstSpeed carPhys v steps st).steering| ≤ steeringClamp carPhys v := by
  induction steps with
  | nil => exact fun st _ h => h
  | cons p rest ih =>
    intro st hdt hst
    have hstep : |((update carPhys v p.2 p.1 st).2).steering| ≤
        steeringClamp carPhys v := by
      show |steerUpdate p.1 (p.2 * carPhys.steering_inc)
        (p.2 * carPhys.steering_dec) (steeringClamp carPhys v) st.steering| ≤
        steeringClamp carPhys v
      exact steerUpdate_mem p.1 _ _ _ st.steering
        (mul_nonneg (hdt p (List.mem_cons_self p rest)) (by norm_num [carPhys]))
        (mul_nonneg (hdt p (List.mem_cons_self p rest)) (by norm_num [carPhys]))
        (steeringClamp_carPhys_nonneg v) hst
    exact ih ((update carPhys v p.2 p.1 st).2)
      (fun q hq => hdt q (List.mem_cons_of_mem p hq)) hstep

/-- Claim C1 as stated is false: a right update at speed 0 with `dt = 1/3`
drives the steering angle to -40 (clamp 40), and a subsequent left update at
speed 90 with `dt = 1/100` leaves it at -38.8 while that update's clamp is 10,
so `|steering_angle| <= steering_clamp` fails after the second update. -/
theorem claim_C1_counterexample :
    ¬ |(update carPhys 90 (1/100) ⟨false, false, true, false⟩
          ((update carPhys 0 (1/3) ⟨false, false, false, true⟩ logicInit).2)
        ).2.steering| ≤ steeringClamp carPhys 90 := by
  norm_num [update, steerUpdate, steerLeft, steerRight, steerCenter,
    steeringClamp, clampOfRatio, speedRatio, pymin, pymax, pyabs, carPhys,
    logicInit, abs_le]

/-- Claim C1 amended: the steering bound invariant holds for every sequence of
updates performed at one fixed speed with nonnegative frame deltas (under
the configured tuning constants): after each update,
`|steering_angle| <= steering_clamp` for the clamp computed at that speed.
It can fail when the speed (hence the clamp) changes between updates, since
each branch clamps only the side being steered. -/
theorem claim_C1_steering_bound (v : ℚ)
    (steps : List (InputDct × ℚ)) (hdt : ∀ p ∈ steps, 0 ≤ p.2) :
    |(runConstSpeed carPhys v steps logicInit).steering| ≤
      steeringClamp carPhys v := by
  refine runConstSpeed_bound v steps logicInit hdt ?_
  show |(0 : ℚ)| ≤ steeringClamp carPhys v
  rw [abs_zero]
  exact steeringClamp_carPhys_nonneg v

theorem claim_C1_witness :
    |(runConstSpeed carPhys 0 [(⟨false, false, true, false⟩, 1/10)]
        logicInit).steering| ≤ steeringClamp carPhys 0 :=
  claim_C1_steering_bound 0 _
    (by intro p hp; rw [List.mem_singleton] at hp; rw [hp]; norm_num)

theorem steerCenter_zero (dec : ℚ) (hdec : 0 ≤ dec) : steerCenter dec 0 = 0 := by
  rw [steerCenter, pyabs_eq_abs, abs_zero, if_pos hdec]

theorem steerCenter_progress (dec s : ℚ) :
    steerCenter dec s = 0 ∨ |steerCenter dec s| = |s| - dec := by
  rw [steerCenter, pyabs_eq_abs]
  by_cases habs : |s| ≤ dec
  · left
    rw [if_pos habs]
  · right
    rw [if_neg habs]
    push_neg at habs
    by_cases hs : 0 < s
    · rw [if_pos hs]
      rw [abs_of_pos hs] at habs
      rw [abs_of_pos (by linarith : (0:ℚ) < s + -1 * dec), abs_of_pos hs]
      ring
    · rw [if_neg hs]
      push_neg at hs
      rw [abs_of_nonpos hs] at habs
      rw [abs_of_neg (by linarith : s + 1 * dec < 0), abs_of_nonpos hs]
      ring

theorem steerCenter_iterate_zero (dec : ℚ) (hdec : 0 ≤ dec) (n : ℕ) :
    (steerCenter dec)^[n] 0 = 0 := by
  induction n with
  | zero => rfl
  | succ n ih => rw [Function.iterate_succ_apply, steerCenter_zero dec hdec, ih]

theorem steerCenter_iterate_bound (dec s : ℚ) (hdec : 0 < dec) (n : ℕ) :
    (steerCenter dec)^[n] s = 0 ∨
      |(steerCenter dec)^[n] s| ≤ |s| - n * dec := by
  induction n with
  | zero => right; simp
  | succ n ih =>
    rcases ih with h0 | hb
    · left
      rw [Function.iterate_succ_apply', h0, steerCenter_zero dec hdec.le]
    · rcases steerCenter_progress dec ((steerCenter dec)^[n] s) with h0 | he
      · left
        rw [Function.iterate_succ_apply', h0]
      · right
        rw [Function.iterate_succ_apply', he]
        push_cast
        linarith

theorem steerCenter_iterate_eventually_zero (dec s : ℚ) (hdec : 0 < dec) :
    ∃ N : ℕ, ∀ n : ℕ, N ≤ n → (steerCenter dec)^[n] s = 0 := by
  obtain ⟨N, hN⟩ := exists_nat_gt (|s| / dec)
  refine ⟨N, fun n hn => ?_⟩
  have hzero : (steerCenter dec)^[N] s = 0 := by
    rcases steerCenter_iterate_bound dec s hdec N with h0 | hb
    · exact h0
    · rw [div_lt_iff₀ hdec] at hN
      have habs := abs_nonneg ((steerCenter dec)^[N] s)
      exact abs_eq_zero.mp (le_antisymm (by linarith) habs)
  calc (steerCenter dec)^[n] s = (steerCenter dec)^[n - N + N] s := by
        rw [Nat.sub_add_cancel hn]
    _ = (steerCenter dec)^[n - N] ((steerCenter dec)^[N] s) := by
        rw [Function.iterate_add_apply]
    _ = 0 := by rw [hzero]; exact steerCenter_iterate_zero dec hdec.le _

/-- Claim C8: in an update with left and right both unset, the steering angle
snaps to exactly 0 when its magnitude is at most `dt * steering_dec` and
otherwise moves toward zero by exactly `dt * steering_dec` (sign-aware);
consequently, holding left = right = false at a fixed `dt > 0` (with
`steering_dec > 0`) makes the steering angle reach exactly 0 after enough
frames and remain 0 on all later such frames. -/
theorem claim_C8_centering (phys : Phys) (v d : ℚ) (f r : Bool)
    (st : LogicState) :
    ((|st.steering| ≤ d * phys.steering_dec →
        (update phys v d ⟨f, r, false, false⟩ st).2.steering = 0) ∧
      (d * phys.steering_dec < |st.steering| →
        (0 < st.steering →
          (update phys v d ⟨f, r, false, false⟩ st).2.steering =
            st.steering - d * phys.steering_dec) ∧
        (st.steering < 0 →
          (update phys v d ⟨f, r, false, false⟩ st).2.steering =
            st.steering + d * phys.steering_dec))) ∧
    (0 < d → 0 < phys.steering_dec →
      ∃ N : ℕ, ∀ n : ℕ, N ≤ n →
        ((fun s => (update phys v d ⟨f, r, false, false⟩ s).2)^[n] st).steering
          = 0) := by
  have hstep : ∀ s0 : LogicState,
      (update phys v d ⟨f, r, false, false⟩ s0).2 =
        ⟨steerCenter (d * phys.steering_dec) s0.steering⟩ := fun s0 => rfl
  refine ⟨⟨fun h => ?_, fun h => ⟨fun hs => ?_, fun hs => ?_⟩⟩,
    fun hd hdec => ?_⟩
  · rw [hstep]
    show steerCenter (d * phys.steering_dec) st.steering = 0
    rw [steerCenter, pyabs_eq_abs, if_pos h]
  · rw [hstep]
    show steerCenter (d * phys.steering_dec) st.steering =
      st.steering - d * phys.steering_dec
    rw [steerCenter, pyabs_eq_abs, if_neg (not_le.mpr h), if_pos hs]
    ring
  · rw [hstep]
    show steerCenter (d * phys.steering_dec) st.steering =
      st.steering + d * phys.steering_dec
    rw [steerCenter, pyabs_eq_abs, if_neg (not_le.mpr h),
      if_neg (not_lt.mpr hs.le)]
    ring
  · have hiter : ∀ (n : ℕ) (s0 : LogicState),
        (fun s => (update phys v d ⟨f, r, false, false⟩ s).2)^[n] s0 =
          ⟨(steerCenter (d * phys.steering_dec))^[n] s0.steering⟩ := by
      intro n
      induction n with
      | zero => intro s0; rfl
      | succ n ih =>
        intro s0
        rw [Function.iterate_succ_apply, Function.iterate_succ_apply]
        rw [hstep s0]
        exact ih _
    obtain ⟨N, hN⟩ := steerCenter_iterate_eventually_zero
      (d * phys.steering_dec) st.steering (mul_pos hd hdec)
    refine ⟨N, fun n hn => ?_⟩
    rw [hiter n st]
    exact hN n hn

theorem claim_C8_witness :
    (update carPhys 0 (1/10) ⟨false, false, false, false⟩ ⟨5⟩).2.steering = 0 ∧
    ∃ N : ℕ, ∀ n : ℕ, N ≤ n →
      ((fun s => (update carPhys 0 (1/10) ⟨false, false, false, false⟩ s).2)^[n]
        (⟨5⟩ : LogicState)).steering = 0 :=
  ⟨(claim_C8_centering carPhys 0 (1/10) false false ⟨5⟩).1.1
      (by norm_num [carPhys]),
    (claim_C8_centering carPhys 0 (1/10) false false ⟨5⟩).2 (by norm_num)
      (by norm_num [carPhys])⟩
